import Mathlib

/-!
# pongo: SAML request tracking and session cookies over a session store

A shallow embedding of `request_tracker.go` and `session.go`.

* The session store (`sessions.Store`) and the two codecs
  (`samlsp.TrackedRequestCodec`, `samlsp.SessionCodec`) are Go interfaces
  supplied by the caller; they are modelled as records of functions and every
  operation is parametric in them.
* The store works on an `*http.Request` / `http.ResponseWriter` pair.  What the
  store can see of that pair is an abstract *cookie state* `σ`: `New` and `Get`
  read it, `Save` yields the state the client comes back with.
* Go strings are Lean strings; byte-wise scans (`strings.HasPrefix`,
  `strings.TrimPrefix`, `net.SplitHostPort`) run over the character list.
* `int(d.Seconds())` goes through float64; the two float operations of
  `time.Duration.Seconds` are modelled with round-to-nearest-even on exact
  fractions.
* `session.Values` is a `map[interface{}]interface{}`.  The unchecked type
  assertion `x.(string)` panics on anything that is not a string, so results
  of the reading operations distinguish a returned error from a panic.
-/

namespace Pongo

/-! ## Errors and outcomes -/

/-- Error values returned by the operations. -/
inductive Err where
  /-- The sentinel `http.ErrNoCookie`. -/
  | ErrNoCookie
  /-- The sentinel `samlsp.ErrNoSession`. -/
  | ErrNoSession
  /-- The value built by `fmt.Errorf("expected index %q, got %q", index, got)`. -/
  | indexMismatch (expected got : String)
  /-- An error value handed back by the store or by a codec. -/
  | external (msg : String)
  deriving DecidableEq, Repr

deriving instance DecidableEq for Except

/-- Result of a Go call that may return a value, return an error, or panic. -/
inductive Outcome (α : Type) where
  | ok (a : α)
  | err (e : Err)
  | panicked
  deriving DecidableEq, Repr

/-! ## gorilla/sessions -/

/-- A dynamically typed Go value (`interface{}`), as far as the code can tell
values apart: the nil interface, a string, or a value of another type. -/
inductive Iface where
  | nil
  | str (s : String)
  | int (n : Int)
  deriving DecidableEq, Repr

/-- The map `map[interface{}]interface{}` held in `Session.Values`, as an
association list; `Values.set` is its only writer and keeps keys distinct. -/
abbrev Values := List (Iface × Iface)

/-- Go `v, ok := m[k]`. -/
def Values.commaOk (m : Values) (k : Iface) : Option Iface :=
  m.lookup k

/-- Go `m[k]`: the zero value (nil interface) when the key is missing. -/
def Values.index (m : Values) (k : Iface) : Iface :=
  match m.lookup k with
  | some v => v
  | none => Iface.nil

/-- Go `m[k] = v`. -/
def Values.set (m : Values) (k v : Iface) : Values :=
  (k, v) :: m.filter (fun p => p.1 != k)

/-- Go `len(m)`. -/
def Values.len (m : Values) : Nat :=
  m.length

/-- Go `x.(string)` without the comma-ok form: `none` stands for the panic. -/
def Iface.assertString : Iface → Option String
  | Iface.str s => some s
  | _ => none

namespace sessions

/-- The struct `sessions.Options` (the fields the code writes). -/
structure Options where
  Path : String
  Domain : String
  MaxAge : Int
  Secure : Bool
  HttpOnly : Bool
  deriving DecidableEq, Repr

/-- The struct `sessions.Session`: the handle a store hands out.  `name` is the
private field set when the handle is made and read back by `Save`. -/
structure Session where
  name : String
  Values : Values
  Options : Options
  deriving DecidableEq, Repr

/-- The interface `sessions.Store` over a cookie state `σ`.
`session.Save(r, w)` is `session.store.Save(r, w, session)`. -/
structure Store (σ : Type) where
  New : σ → String → Except Err Session
  Get : σ → String → Except Err Session
  Save : σ → Session → Except Err σ

/-- The store hands out a new handle under the name it was asked for. -/
def Store.NamesNew {σ : Type} (S : Store σ) (st : σ) : Prop :=
  ∀ n c, S.New st n = Except.ok c → c.name = n

/-- The cookie `c`, once saved in state `st`, is fetched back under its name in
the state that `Save` yields. -/
def Store.FetchesBack {σ : Type} (S : Store σ) (st : σ) (c : Session) : Prop :=
  ∀ st1, S.Save st c = Except.ok st1 →
    ∃ c1, S.Get st1 c.name = Except.ok c1 ∧ c1.Values = c.Values

end sessions

/-! ## net/url, net/http, net -/

namespace url

/-- The fields of `url.URL` that the code reads. -/
structure URL where
  Scheme : String
  Host : String
  Path : String
  deriving DecidableEq, Repr

end url

namespace http

/-- A cookie of the inbound request (`http.Cookie`). -/
structure Cookie where
  Name : String
  Value : String
  deriving DecidableEq, Repr

/-- The inbound `http.Request`: its URL and the cookies `r.Cookies()` lists. -/
structure Request where
  URL : url.URL
  Cookies : List Cookie
  deriving DecidableEq, Repr

end http

namespace strings

/-- Go `strings.HasPrefix`. -/
def HasPrefix (s pre : String) : Bool :=
  pre.data.isPrefixOf s.data

/-- Go `strings.TrimPrefix`: `s[len(pre):]` when `s` starts with `pre`. -/
def TrimPrefix (s pre : String) : String :=
  if HasPrefix s pre then String.mk (s.data.drop pre.data.length) else s

end strings

namespace bytealg

/-- Position of the first `c` in `s`, if any (`bytealg.IndexByteString`). -/
def IndexByteString : List Char → Char → Option Nat
  | [], _ => none
  | x :: xs, c =>
    if x = c then some 0
    else match IndexByteString xs c with
      | some i => some (i + 1)
      | none => none

/-- Position of the last `c` in `s`, if any (`bytealg.LastIndexByteString`). -/
def LastIndexByteString : List Char → Char → Option Nat
  | [], _ => none
  | x :: xs, c =>
    match LastIndexByteString xs c with
    | some i => some (i + 1)
    | none => if x = c then some 0 else none

end bytealg

namespace net

/-- The tail of `net.SplitHostPort`: the two bracket scans and the result. -/
def splitTail (hp host : List Char) (j k i : Nat) : Except String (String × String) :=
  if (bytealg.IndexByteString (hp.drop j) '[').isSome then
    Except.error "unexpected '[' in address"
  else if (bytealg.IndexByteString (hp.drop k) ']').isSome then
    Except.error "unexpected ']' in address"
  else
    Except.ok (String.mk host, String.mk (hp.drop (i + 1)))

/-- Go's standard-library `net.SplitHostPort` (net/ipsock.go), which
`CreateSession` calls to find a port on the configured domain. -/
def SplitHostPort (hostport : String) : Except String (String × String) :=
  let hp := hostport.data
  match bytealg.LastIndexByteString hp ':' with
  | none => Except.error "missing port in address"
  | some i =>
    if hp.head? = some '[' then
      match bytealg.IndexByteString hp ']' with
      | none => Except.error "missing ']' in address"
      | some e =>
        if e + 1 = hp.length then Except.error "missing port in address"
        else if e + 1 = i then splitTail hp ((hp.take e).drop 1) 1 (e + 1) i
        else if hp.get? (e + 1) = some ':' then Except.error "too many colons in address"
        else Except.error "missing port in address"
    else
      let host := hp.take i
      if (bytealg.IndexByteString host ':').isSome then
        Except.error "too many colons in address"
      else splitTail hp host 0 0 i

end net

namespace float64

/-! IEEE-754 binary64 arithmetic, as far as `time.Duration.Seconds` uses it.
A value is the exact fraction `num / den` it stands for; an operation computes
the exact result and rounds it to the nearest number `m * 2^e` with a 53-bit
`m`, ties to even.  Durations stay far inside the range of normal numbers, so
overflow, subnormals, infinities and NaN do not arise. -/

/-- The integer nearest to `a / b`, ties to even. -/
def rne (a b : Nat) : Nat :=
  let q := a / b
  let r := a % b
  if 2 * r < b then q else if b < 2 * r then q + 1 else if q % 2 = 0 then q else q + 1

/-- Position of the highest set bit of `n`, by halving at most `fuel` times. -/
def bits : Nat → Nat → Nat
  | 0, _ => 0
  | fuel + 1, n => if 2 ≤ n then bits fuel (n / 2) + 1 else 0

/-- The floor of the binary logarithm of `n`, for `n > 0`. -/
def log2 (n : Nat) : Nat := bits n n

/-- The floor of the binary logarithm of `a / b`, for `a, b > 0`. -/
def ilog2 (a b : Nat) : Int :=
  let c : Int := (log2 a : Int) - (log2 b : Int)
  if (if 0 ≤ c then b * 2 ^ c.toNat ≤ a else b ≤ a * 2 ^ (-c).toNat) then c else c - 1

/-- The float64 nearest to `a / b` (for `b > 0`), as a fraction: with `e` the
exponent that puts `a / (b * 2^e)` in `[2^52, 2^53)`, the value
`rne (a / (b * 2^e)) * 2^e`. -/
def roundNat (a b : Nat) : Nat × Nat :=
  if a = 0 then (0, 1)
  else
    let e := ilog2 a b - 52
    if 0 ≤ e then (rne a (b * 2 ^ e.toNat) * 2 ^ e.toNat, 1)
    else (rne (a * 2 ^ (-e).toNat) b, 2 ^ (-e).toNat)

/-- The float64 nearest to `a / b` for a signed numerator; rounding to nearest
even is symmetric in the sign. -/
def round (a : Int) (b : Nat) : Int × Nat :=
  let r := roundNat a.natAbs b
  (a.sign * r.1, r.2)

/-- Go `float64(n)` for an integer `n`. -/
def ofInt (n : Int) : Int × Nat := round n 1

/-- Go `x + y` on float64. -/
def add (x y : Int × Nat) : Int × Nat := round (x.1 * y.2 + y.1 * x.2) (x.2 * y.2)

/-- Go `x / y` on float64, for `y` not zero. -/
def div (x y : Int × Nat) : Int × Nat := round (x.1 * y.2 * y.1.sign) (x.2 * y.1.natAbs)

/-- Go `int(x)` for a float64 `x`: the integer part, toward zero. -/
def toInt (x : Int × Nat) : Int := Int.tdiv x.1 x.2

end float64

namespace time

/-- Nanoseconds in `time.Second`. -/
def Second : Int := 1000000000

/-- The constant `time.Hour`. -/
def Hour : Int := 3600 * Second

/-- The method `Duration.Seconds` of a `time.Duration` of `d` nanoseconds:
`sec := d / Second; nsec := d % Second; float64(sec) + float64(nsec)/1e9`,
with Go's truncating integer division. -/
def Seconds (d : Int) : Int × Nat :=
  let sec := Int.tdiv d Second
  let nsec := Int.tmod d Second
  float64.add (float64.ofInt sec) (float64.div (float64.ofInt nsec) (1000000000, 1))

end time

/-! ## crewjam/saml -/

namespace saml

/-- The part of `saml.ServiceProvider` the tracker reads. -/
structure ServiceProvider where
  AcsURL : url.URL
  deriving DecidableEq, Repr

/-- The constant `saml.MaxIssueDelay` (90 seconds). -/
def MaxIssueDelay : Int := 90 * time.Second

end saml

namespace samlsp

/-- The struct `samlsp.TrackedRequest`. -/
structure TrackedRequest where
  Index : String
  SAMLRequestID : String
  URI : String
  deriving DecidableEq, Repr

/-- The interface `samlsp.TrackedRequestCodec`. -/
structure TrackedRequestCodec where
  Encode : TrackedRequest → Except Err String
  Decode : String → Except Err TrackedRequest

/-- The interface `samlsp.SessionCodec`, for assertions `α` and sessions `τ`. -/
structure SessionCodec (α τ : Type) where
  New : α → Except Err τ
  Encode : τ → Except Err String
  Decode : String → Except Err τ

/-- The fields of `samlsp.Options` read by `DefaultSessionProvider`. -/
structure Options where
  URL : url.URL
  CookieMaxAge : Int
  CookieName : String
  CookieDomain : String
  CookieSecure : Bool
  deriving DecidableEq, Repr

end samlsp

/-! ## request_tracker.go -/

/-- The constant `valueKey` of session.go. -/
def valueKey : String := "value"

/-- The struct `RequestTracker`; `MaxAge` is a `time.Duration` in nanoseconds. -/
structure RequestTracker (σ : Type) where
  Store : sessions.Store σ
  ServiceProvider : saml.ServiceProvider
  NamePrefix : String
  Codec : samlsp.TrackedRequestCodec
  MaxAge : Int

/-- The function `DefaultRequestTracker`; `codec` is what
`samlsp.DefaultTrackedRequestCodec(opts)` returns. -/
def DefaultRequestTracker {σ : Type} (store : sessions.Store σ)
    (codec : samlsp.TrackedRequestCodec) (serviceProvider : saml.ServiceProvider) :
    RequestTracker σ :=
  { Store := store
    ServiceProvider := serviceProvider
    NamePrefix := "saml_"
    Codec := codec
    MaxAge := saml.MaxIssueDelay }

/-- The method `RequestTracker.name`. -/
def RequestTracker.name {σ : Type} (t : RequestTracker σ) (i : String) : String :=
  t.NamePrefix ++ i

/-- The body of `TrackRequest` up to the call of `Save` (lines 40 to 61): the
record that is tracked and the session handle as it is saved.  `index` is the
value drawn by `base64.RawURLEncoding.EncodeToString(randomBytes(42))` and
`urlString` is the method `(*url.URL).String`. -/
def RequestTracker.trackingCookie {σ : Type} (t : RequestTracker σ) (st : σ)
    (r : http.Request) (samlRequestID index : String) (urlString : url.URL → String) :
    Except Err (samlsp.TrackedRequest × sessions.Session) :=
  let trackedRequest : samlsp.TrackedRequest :=
    { Index := index, SAMLRequestID := samlRequestID, URI := urlString r.URL }
  match t.Codec.Encode trackedRequest with
  | Except.error e => Except.error e
  | Except.ok signedTrackedRequest =>
    match t.Store.New st (t.name trackedRequest.Index) with
    | Except.error e => Except.error e
    | Except.ok session =>
      Except.ok (trackedRequest,
        { session with
          Values := session.Values.set (Iface.str valueKey) (Iface.str signedTrackedRequest)
          Options :=
            { session.Options with
              MaxAge := float64.toInt (time.Seconds t.MaxAge)
              HttpOnly := true
              Secure := t.ServiceProvider.AcsURL.Scheme == "https"
              Path := t.ServiceProvider.AcsURL.Path } })

/-- The method `TrackRequest`: the returned index and the next cookie state. -/
def RequestTracker.TrackRequest {σ : Type} (t : RequestTracker σ) (st : σ)
    (r : http.Request) (samlRequestID index : String) (urlString : url.URL → String) :
    Except Err (String × σ) :=
  match t.trackingCookie st r samlRequestID index urlString with
  | Except.error e => Except.error e
  | Except.ok (trackedRequest, session) =>
    match t.Store.Save st session with
    | Except.error e => Except.error e
    | Except.ok st1 => Except.ok (trackedRequest.Index, st1)

/-- The method `StopTrackingRequest`. -/
def RequestTracker.StopTrackingRequest {σ : Type} (t : RequestTracker σ) (st : σ)
    (index : String) : Except Err σ :=
  match t.Store.Get st (t.name index) with
  | Except.error e => Except.error e
  | Except.ok session =>
    t.Store.Save st { session with Options := { session.Options with MaxAge := -1 } }

/-- The loop of `GetTrackedRequests` over the remaining cookies, `reqs` being
the records appended so far.  In the empty-bag branch the code sets
`session.Options.MaxAge = -1` on the handle and never saves it. -/
def RequestTracker.scanCookies {σ : Type} (t : RequestTracker σ) (st : σ) :
    List http.Cookie → List samlsp.TrackedRequest → Outcome (List samlsp.TrackedRequest)
  | [], reqs => Outcome.ok reqs
  | cookie :: rest, reqs =>
    if !strings.HasPrefix cookie.Name t.NamePrefix then t.scanCookies st rest reqs
    else
      match t.Store.Get st cookie.Name with
      | Except.error _ => t.scanCookies st rest reqs
      | Except.ok session =>
        if session.Values.len = 0 then t.scanCookies st rest reqs
        else
          match (session.Values.index (Iface.str valueKey)).assertString with
          | none => Outcome.panicked
          | some v =>
            match t.Codec.Decode v with
            | Except.error _ => t.scanCookies st rest reqs
            | Except.ok trackedRequest =>
              if strings.TrimPrefix cookie.Name t.NamePrefix ≠ trackedRequest.Index then
                t.scanCookies st rest reqs
              else t.scanCookies st rest (reqs ++ [trackedRequest])

/-- The method `GetTrackedRequests`. -/
def RequestTracker.GetTrackedRequests {σ : Type} (t : RequestTracker σ) (st : σ)
    (r : http.Request) : Outcome (List samlsp.TrackedRequest) :=
  t.scanCookies st r.Cookies []

/-- The method `GetTrackedRequest`. -/
def RequestTracker.GetTrackedRequest {σ : Type} (t : RequestTracker σ) (st : σ)
    (index : String) : Outcome samlsp.TrackedRequest :=
  match t.Store.Get st (t.name index) with
  | Except.error e => Outcome.err e
  | Except.ok session =>
    if session.Values.len = 0 then Outcome.err Err.ErrNoCookie
    else
      match (session.Values.index (Iface.str valueKey)).assertString with
      | none => Outcome.panicked
      | some v =>
        match t.Codec.Decode v with
        | Except.error e => Outcome.err e
        | Except.ok trackedRequest =>
          if trackedRequest.Index ≠ index then
            Outcome.err (Err.indexMismatch index trackedRequest.Index)
          else Outcome.ok trackedRequest

/-! ## session.go -/

/-- The struct `SessionProvider`; `MaxAge` is a `time.Duration` in nanoseconds. -/
structure SessionProvider (σ α τ : Type) where
  Store : sessions.Store σ
  Name : String
  Domain : String
  HTTPOnly : Bool
  Secure : Bool
  MaxAge : Int
  Codec : samlsp.SessionCodec α τ

/-- The function `DefaultSessionProvider`; `codec` is what
`samlsp.DefaultSessionCodec(opts)` returns. -/
def DefaultSessionProvider {σ α τ : Type} (store : sessions.Store σ)
    (codec : samlsp.SessionCodec α τ) (opts : samlsp.Options) : SessionProvider σ α τ :=
  let maxAge := if opts.CookieMaxAge > 0 then opts.CookieMaxAge else time.Hour
  let cookieName := if opts.CookieName ≠ "" then opts.CookieName else "token"
  let cookieDomain := if opts.CookieDomain ≠ "" then opts.CookieDomain else opts.URL.Host
  let cookieSecure := if opts.CookieSecure then true else opts.URL.Scheme == "https"
  { Store := store
    Name := cookieName
    Domain := cookieDomain
    MaxAge := maxAge
    HTTPOnly := true
    Secure := cookieSecure
    Codec := codec }

/-- Lines 71 to 73 of `CreateSession`: the receiver after the port is cut
from its `Domain` (the method has a pointer receiver and assigns the field). -/
def SessionProvider.stripPort {σ α τ : Type} (s : SessionProvider σ α τ) :
    SessionProvider σ α τ :=
  match net.SplitHostPort s.Domain with
  | Except.ok (domain, _) => { s with Domain := domain }
  | Except.error _ => s

/-- Lines 75 to 96 of `CreateSession`: the session handle as it is saved. -/
def SessionProvider.sessionCookie {σ α τ : Type} (s : SessionProvider σ α τ) (st : σ)
    (r : http.Request) (assertion : α) : Except Err sessions.Session :=
  match s.Codec.New assertion with
  | Except.error e => Except.error e
  | Except.ok samlSess =>
    match s.Codec.Encode samlSess with
    | Except.error e => Except.error e
    | Except.ok value =>
      match s.Store.New st s.Name with
      | Except.error e => Except.error e
      | Except.ok session =>
        Except.ok
          { session with
            Values := session.Values.set (Iface.str valueKey) (Iface.str value)
            Options :=
              { session.Options with
                Domain := s.Domain
                MaxAge := float64.toInt (time.Seconds s.MaxAge)
                HttpOnly := s.HTTPOnly
                Secure := s.Secure || r.URL.Scheme == "https"
                Path := "/" } }

/-- The method `CreateSession`: the receiver as the call leaves it, and the
error or the next cookie state. -/
def SessionProvider.CreateSession {σ α τ : Type} (s : SessionProvider σ α τ) (st : σ)
    (r : http.Request) (assertion : α) : SessionProvider σ α τ × Except Err σ :=
  let s1 := s.stripPort
  (s1,
    match s1.sessionCookie st r assertion with
    | Except.error e => Except.error e
    | Except.ok session => s1.Store.Save st session)

/-- The method `DeleteSession`. -/
def SessionProvider.DeleteSession {σ α τ : Type} (s : SessionProvider σ α τ) (st : σ) :
    Except Err σ :=
  match s.Store.Get st s.Name with
  | Except.error e => Except.error e
  | Except.ok session =>
    s.Store.Save st { session with Options := { session.Options with MaxAge := -1 } }

/-- The method `GetSession`. -/
def SessionProvider.GetSession {σ α τ : Type} (s : SessionProvider σ α τ) (st : σ) :
    Outcome τ :=
  match s.Store.Get st s.Name with
  | Except.error e => Outcome.err e
  | Except.ok session =>
    match session.Values.commaOk (Iface.str valueKey) with
    | none => Outcome.err Err.ErrNoSession
    | some v =>
      match v.assertString with
      | none => Outcome.panicked
      | some str =>
        match s.Codec.Decode str with
        | Except.error _ => Outcome.err Err.ErrNoSession
        | Except.ok samlSession => Outcome.ok samlSession

/-! ## What one cookie contributes to the scan -/

/-- The record that one request cookie adds to the result of
`GetTrackedRequests`, if any: the cookie name starts with `NamePrefix`, the
store fetches it, its bag is not empty, the text under `valueKey` decodes, and
the decoded `Index` is the cookie name without the `NamePrefix`. -/
def RequestTracker.contribution {σ : Type} (t : RequestTracker σ) (st : σ)
    (cookie : http.Cookie) : Option samlsp.TrackedRequest :=
  if strings.HasPrefix cookie.Name t.NamePrefix then
    match t.Store.Get st cookie.Name with
    | Except.error _ => none
    | Except.ok session =>
      if session.Values.len = 0 then none
      else
        match session.Values.index (Iface.str valueKey) with
        | Iface.str v =>
          match t.Codec.Decode v with
          | Except.error _ => none
          | Except.ok trackedRequest =>
            if strings.TrimPrefix cookie.Name t.NamePrefix = trackedRequest.Index then
              some trackedRequest
            else none
        | _ => none
  else none

/-- The bag fetched for a cookie in the tracker's name space, when not empty,
holds a string under `valueKey`. -/
def RequestTracker.stringValued {σ : Type} (t : RequestTracker σ) (st : σ)
    (cookie : http.Cookie) : Prop :=
  strings.HasPrefix cookie.Name t.NamePrefix = true →
  ∀ session, t.Store.Get st cookie.Name = Except.ok session →
    session.Values.len ≠ 0 →
    ∃ v, session.Values.index (Iface.str valueKey) = Iface.str v

/-! ## A concrete store, codecs and scenarios

An in-memory model of gorilla's `CookieStore` together with the client across
one response/request round trip.  The state lists the cookies the client holds
and presents on the request being served.  The client tells cookies apart by
name, domain and path: a saved cookie replaces the one with the same three, a
cookie saved with a negative max-age removes the one with the same three, and
anything else is kept.  The store fetches by name, as `r.Cookie(name)` does,
and hands out a handle carrying the store's default options, not the
attributes the cookie was written with (a request does not carry them); a name
without a cookie gives a fresh handle with an empty value bag and no error. -/

namespace jar

/-- Default options of a handle (those of `sessions.NewCookieStore`). -/
def defaults : sessions.Options :=
  { Path := "/", Domain := "", MaxAge := 86400 * 30, Secure := false, HttpOnly := false }

/-- The client's identity of a cookie: name, domain and path. -/
def sameCookie (c d : sessions.Session) : Bool :=
  c.name == d.name && c.Options.Domain == d.Options.Domain && c.Options.Path == d.Options.Path

/-- The cookie named `name` that the request lists first: the one with the
longest path, the oldest among equals. -/
def pick (cookies : List sessions.Session) (name : String) : Option sessions.Session :=
  cookies.foldl
    (fun best c =>
      if c.name == name then
        match best with
        | none => some c
        | some b => if b.Options.Path.length < c.Options.Path.length then some c else some b
      else best)
    none

/-- The handle for `name`: the value bag of the cookie, the store's options. -/
def fetch (cookies : List sessions.Session) (name : String) : sessions.Session :=
  match pick cookies name with
  | some c => { name := name, Values := c.Values, Options := defaults }
  | none => { name := name, Values := [], Options := defaults }

/-- The jar after the client has processed the `Set-Cookie` for `c`. -/
def put (cookies : List sessions.Session) (c : sessions.Session) : List sessions.Session :=
  if c.Options.MaxAge < 0 then cookies.filter (fun d => !sameCookie c d)
  else if cookies.any (sameCookie c) then
    cookies.map (fun d => if sameCookie c d then c else d)
  else cookies ++ [c]

end jar

/-- The cookie-jar store. -/
def jarStore : sessions.Store (List sessions.Session) :=
  { New := fun cookies name => Except.ok (jar.fetch cookies name)
    Get := fun cookies name => Except.ok (jar.fetch cookies name)
    Save := fun cookies c => Except.ok (jar.put cookies c) }

namespace pipeCodec

/-- The three fields joined by a bar; refused when a bar would be ambiguous. -/
def Encode (tr : samlsp.TrackedRequest) : Except Err String :=
  if '|' ∈ tr.Index.data ∨ '|' ∈ tr.SAMLRequestID.data then
    Except.error (Err.external "bar in field")
  else Except.ok (tr.Index ++ "|" ++ tr.SAMLRequestID ++ "|" ++ tr.URI)

/-- Split at the first two bars. -/
def Decode (s : String) : Except Err samlsp.TrackedRequest :=
  match s.data.span (fun ch => ch != '|') with
  | (_, []) => Except.error (Err.external "malformed")
  | (a, _ :: rest) =>
    match rest.span (fun ch => ch != '|') with
    | (_, []) => Except.error (Err.external "malformed")
    | (b, _ :: c) =>
      Except.ok { Index := String.mk a, SAMLRequestID := String.mk b, URI := String.mk c }

end pipeCodec

/-- A tracked-request codec writing `index|id|uri`. -/
def barCodec : samlsp.TrackedRequestCodec :=
  { Encode := pipeCodec.Encode, Decode := pipeCodec.Decode }

/-- A session codec over subject names: the session of subject `a` is the text
`subject=a`, stored as it is; only texts of that shape decode. -/
def subjectCodec : samlsp.SessionCodec String String :=
  { New := fun a =>
      if a = "" then Except.error (Err.external "empty subject")
      else Except.ok ("subject=" ++ a)
    Encode := fun s => Except.ok s
    Decode := fun s =>
      if strings.HasPrefix s "subject=" then Except.ok s
      else Except.error (Err.external "not a session") }

namespace scenario

/-- Rendering of a server-side request URL: the path. -/
def urlString (u : url.URL) : String := u.Path

/-- An assertion-consumer endpoint served over https. -/
def acs : url.URL := { Scheme := "https", Host := "sp.example.com", Path := "/saml/acs" }

/-- The default tracker over the cookie jar. -/
def tracker : RequestTracker (List sessions.Session) :=
  DefaultRequestTracker jarStore barCodec { AcsURL := acs }

/-- A plain-transport request for `/dashboard` carrying no cookies. -/
def dashboard : http.Request :=
  { URL := { Scheme := "", Host := "", Path := "/dashboard" }, Cookies := [] }

/-- The jar after `TrackRequest("req-1")` drew index `ix1` on `dashboard`. -/
def trackedJar : List sessions.Session :=
  [ { name := "saml_ix1"
      Values := [(Iface.str "value", Iface.str "ix1|req-1|/dashboard")]
      Options := { Path := "/saml/acs", Domain := "", MaxAge := 90, Secure := true,
                   HttpOnly := true } } ]

/-- The record tracked in `trackedJar`. -/
def trackedRecord : samlsp.TrackedRequest :=
  { Index := "ix1", SAMLRequestID := "req-1", URI := "/dashboard" }

/-- A tracker whose assertion-consumer path is the store's default path. -/
def rootTracker : RequestTracker (List sessions.Session) :=
  DefaultRequestTracker jarStore barCodec
    { AcsURL := { Scheme := "https", Host := "sp.example.com", Path := "/" } }

/-- A tracker whose max-age is one nanosecond short of 16777217 seconds. -/
def longTracker : RequestTracker (List sessions.Session) :=
  { tracker with MaxAge := 16777216999999999 }

/-- The cookie that `longTracker` writes for `req-1` with index `ix1`. -/
def longCookie : sessions.Session :=
  { name := "saml_ix1"
    Values := [(Iface.str "value", Iface.str "ix1|req-1|/dashboard")]
    Options := { Path := "/saml/acs", Domain := "", MaxAge := 16777217, Secure := true,
                 HttpOnly := true } }

/-- A jar in which the cookie of index `ixA` carries the payload of `ixB`. -/
def swappedJar : List sessions.Session :=
  [ { name := "saml_ixA"
      Values := [(Iface.str "value", Iface.str "ixB|req-2|/admin")]
      Options := jar.defaults } ]

/-- A jar holding a cookie under the tracker's name space that another part of
the application saved through the same store: its bag has no `value` key. -/
def strayJar : List sessions.Session :=
  [ { name := "saml_prefs"
      Values := [(Iface.str "theme", Iface.str "dark")]
      Options := jar.defaults } ]

/-- A request presenting the stray cookie. -/
def strayRequest : http.Request :=
  { URL := { Scheme := "", Host := "", Path := "/" }
    Cookies := [{ Name := "saml_prefs", Value := "opaque" }] }

/-- A session provider configured insecure, with a port on its domain. -/
def provider : SessionProvider (List sessions.Session) String String :=
  { Store := jarStore
    Name := "token"
    Domain := "example.com:8443"
    HTTPOnly := true
    Secure := false
    MaxAge := time.Hour
    Codec := subjectCodec }

/-- The same provider with the exported field `HTTPOnly` switched off. -/
def scriptableProvider : SessionProvider (List sessions.Session) String String :=
  { provider with HTTPOnly := false }

/-- The cookie that `scriptableProvider` writes for subject `alice`. -/
def scriptableCookie : sessions.Session :=
  { name := "token"
    Values := [(Iface.str "value", Iface.str "subject=alice")]
    Options := { Path := "/", Domain := "example.com", MaxAge := 3600, Secure := false,
                 HttpOnly := false } }

/-- The same provider with a domain that has no port. -/
def portlessProvider : SessionProvider (List sessions.Session) String String :=
  { provider with Domain := "example.com" }

/-- Options from which `DefaultSessionProvider` builds a provider. -/
def options : samlsp.Options :=
  { URL := { Scheme := "http", Host := "localhost:8000", Path := "" }
    CookieMaxAge := 0
    CookieName := ""
    CookieDomain := ""
    CookieSecure := false }

/-- The jar after `CreateSession` for subject `alice` on `dashboard`. -/
def sessionJar : List sessions.Session :=
  [ { name := "token"
      Values := [(Iface.str "value", Iface.str "subject=alice")]
      Options := { Path := "/", Domain := "example.com", MaxAge := 3600, Secure := false,
                   HttpOnly := true } } ]

/-- A jar whose session cookie holds a text the codec rejects. -/
def foreignJar : List sessions.Session :=
  [ { name := "token"
      Values := [(Iface.str "value", Iface.str "garbage")]
      Options := jar.defaults } ]

/-- A jar whose session cookie has a bag without the `value` key. -/
def keylessJar : List sessions.Session :=
  [ { name := "token"
      Values := [(Iface.str "theme", Iface.str "dark")]
      Options := jar.defaults } ]

end scenario

/-! ## The value bag -/

theorem Values.commaOk_set (m : Values) (k v : Iface) :
    (Values.set m k v).commaOk k = some v := by
  simp [Values.set, Values.commaOk, List.lookup]

theorem Values.index_set (m : Values) (k v : Iface) :
    (Values.set m k v).index k = v := by
  simp [Values.set, Values.index, List.lookup]

theorem Values.len_set (m : Values) (k v : Iface) :
    (Values.set m k v).len ≠ 0 := by
  simp [Values.set, Values.len]

theorem Values.index_of_commaOk (m : Values) (k v : Iface)
    (h : m.commaOk k = some v) : m.index k = v := by
  simp only [Values.commaOk] at h
  simp [Values.index, h]

theorem Values.len_of_commaOk (m : Values) (k v : Iface)
    (h : m.commaOk k = some v) : m.len ≠ 0 := by
  intro h0
  have hm : m = [] := List.length_eq_zero.mp h0
  subst hm
  simp [Values.commaOk] at h

/-! ## What a successful `TrackRequest` did -/

theorem trackingCookie_ok {σ : Type} (t : RequestTracker σ) (st : σ) (r : http.Request)
    (id index : String) (urlString : url.URL → String)
    (rec : samlsp.TrackedRequest) (c : sessions.Session)
    (h : t.trackingCookie st r id index urlString = Except.ok (rec, c)) :
    rec = { Index := index, SAMLRequestID := id, URI := urlString r.URL } ∧
    ∃ signed session,
      t.Codec.Encode rec = Except.ok signed ∧
      t.Store.New st (t.name index) = Except.ok session ∧
      c = { session with
            Values := session.Values.set (Iface.str valueKey) (Iface.str signed)
            Options :=
              { session.Options with
                MaxAge := float64.toInt (time.Seconds t.MaxAge)
                HttpOnly := true
                Secure := t.ServiceProvider.AcsURL.Scheme == "https"
                Path := t.ServiceProvider.AcsURL.Path } } := by
  unfold RequestTracker.trackingCookie at h
  simp only at h
  split at h
  · cases h
  · rename_i signed hs
    split at h
    · cases h
    · rename_i session hn
      simp only [Except.ok.injEq, Prod.mk.injEq] at h
      obtain ⟨h1, h2⟩ := h
      subst h1
      exact ⟨rfl, signed, session, hs, hn, h2.symm⟩

theorem trackRequest_ok {σ : Type} (t : RequestTracker σ) (st st1 : σ) (r : http.Request)
    (id index : String) (urlString : url.URL → String) (i : String)
    (h : t.TrackRequest st r id index urlString = Except.ok (i, st1)) :
    i = index ∧ ∃ c,
      t.trackingCookie st r id index urlString
        = Except.ok ({ Index := index, SAMLRequestID := id, URI := urlString r.URL }, c) ∧
      t.Store.Save st c = Except.ok st1 := by
  unfold RequestTracker.TrackRequest at h
  split at h
  · cases h
  · rename_i rec c hc
    split at h
    · cases h
    · rename_i st2 hsave
      simp only [Except.ok.injEq, Prod.mk.injEq] at h
      obtain ⟨h1, h2⟩ := h
      have hrec := (trackingCookie_ok t st r id index urlString rec c hc).1
      subst hrec
      subst h2
      exact ⟨h1.symm, c, hc, hsave⟩

/-- C1. Round trip of request tracking: over a store that names a new handle
as asked and in which the cookie that `TrackRequest` saves is fetched back
under its name in the state `Save` yields, and a codec whose `Decode` inverts
`Encode` on the tracked record: when `TrackRequest` for request ID `id` on a
request with URL `u` succeeds and returns index `i`, `GetTrackedRequest i` on
the resulting cookie state returns the record with `Index = i`,
`SAMLRequestID = id` and `URI = u`. -/
theorem trackRequest_getTrackedRequest_roundtrip {σ : Type} (t : RequestTracker σ)
    (st st1 : σ) (r : http.Request) (id index : String) (urlString : url.URL → String)
    (i : String)
    (htrack : t.TrackRequest st r id index urlString = Except.ok (i, st1))
    (hcodec : ∀ signed,
      t.Codec.Encode { Index := i, SAMLRequestID := id, URI := urlString r.URL }
        = Except.ok signed →
      t.Codec.Decode signed
        = Except.ok { Index := i, SAMLRequestID := id, URI := urlString r.URL })
    (hname : t.Store.NamesNew st)
    (hfetch : ∀ rec c, t.trackingCookie st r id index urlString = Except.ok (rec, c) →
      t.Store.FetchesBack st c) :
    t.GetTrackedRequest st1 i
      = Outcome.ok { Index := i, SAMLRequestID := id, URI := urlString r.URL } := by
  obtain ⟨hi, c, hc, hsave⟩ := trackRequest_ok t st st1 r id index urlString i htrack
  subst hi
  obtain ⟨_, signed, session, henc, hnew, hceq⟩ :=
    trackingCookie_ok t st r id i urlString _ c hc
  obtain ⟨c1, hget, hvals⟩ := hfetch _ c hc st1 hsave
  have hcname : c.name = t.name i := by
    rw [hceq]
    exact hname _ session hnew
  rw [hcname] at hget
  have hdec := hcodec signed henc
  have hv : c1.Values = session.Values.set (Iface.str valueKey) (Iface.str signed) := by
    rw [hvals, hceq]
  unfold RequestTracker.GetTrackedRequest
  simp only [hget, hv, Values.index_set, Iface.assertString, hdec]
  simp [Values.len_set]

/-- Witness for C1: the scenario `TrackRequest("req-1")` on `/dashboard` with
index `ix1`, over the cookie jar and the bar codec. -/
theorem trackRequest_getTrackedRequest_roundtrip_witness :
    scenario.tracker.TrackRequest [] scenario.dashboard "req-1" "ix1" scenario.urlString
      = Except.ok ("ix1", scenario.trackedJar) ∧
    scenario.tracker.GetTrackedRequest scenario.trackedJar "ix1"
      = Outcome.ok { Index := "ix1", SAMLRequestID := "req-1", URI := "/dashboard" } :=
  ⟨by decide,
   trackRequest_getTrackedRequest_roundtrip scenario.tracker [] scenario.trackedJar
    scenario.dashboard "req-1" "ix1" scenario.urlString "ix1" (by decide)
    (by
      intro signed h
      have henc : scenario.tracker.Codec.Encode
          { Index := "ix1", SAMLRequestID := "req-1", URI := scenario.urlString scenario.dashboard.URL }
          = Except.ok "ix1|req-1|/dashboard" := by decide
      rw [henc] at h
      cases h
      decide)
    (by
      intro n c h
      cases h
      rfl)
    (by
      intro rec c h st1 hsave
      have hc : scenario.tracker.trackingCookie [] scenario.dashboard "req-1" "ix1"
          scenario.urlString
          = Except.ok ({ Index := "ix1", SAMLRequestID := "req-1", URI := "/dashboard" },
              { name := "saml_ix1"
                Values := [(Iface.str "value", Iface.str "ix1|req-1|/dashboard")]
                Options := { Path := "/saml/acs", Domain := "", MaxAge := 90, Secure := true,
                             HttpOnly := true } }) := by decide
      rw [hc] at h
      cases h
      cases hsave
      exact ⟨_, rfl, by decide⟩)⟩

/-- C2. Anti-substitution: if the cookie named `NamePrefix + a` holds a value
that the codec decodes to a record whose `Index` is `b` with `a ≠ b`, then
`GetTrackedRequest a` returns the index-mismatch error (and no record); and
whenever `GetTrackedRequest a` returns a record, that record's `Index` is `a`. -/
theorem getTrackedRequest_antiSubstitution {σ : Type} (t : RequestTracker σ) (st : σ)
    (a : String) :
    (∀ (b : String) (c : sessions.Session) (v : String) (rec : samlsp.TrackedRequest),
      a ≠ b →
      t.Store.Get st (t.NamePrefix ++ a) = Except.ok c →
      c.Values.commaOk (Iface.str valueKey) = some (Iface.str v) →
      t.Codec.Decode v = Except.ok rec →
      rec.Index = b →
      t.GetTrackedRequest st a = Outcome.err (Err.indexMismatch a b)) ∧
    (∀ rec : samlsp.TrackedRequest,
      t.GetTrackedRequest st a = Outcome.ok rec → rec.Index = a) := by
  constructor
  · intro b c v rec hab hget hval hdec hidx
    subst hidx
    have hne : rec.Index ≠ a := fun h => hab h.symm
    unfold RequestTracker.GetTrackedRequest RequestTracker.name
    simp only [hget, Values.index_of_commaOk _ _ _ hval, Iface.assertString, hdec]
    simp [Values.len_of_commaOk _ _ _ hval, hne]
  · intro rec h
    unfold RequestTracker.GetTrackedRequest at h
    split at h
    · cases h
    · split at h
      · cases h
      · split at h
        · cases h
        · split at h
          · cases h
          · split at h
            · cases h
            · rename_i hidx
              simp only [Outcome.ok.injEq] at h
              subst h
              exact not_not.mp hidx

/-- Witness for C2: the cookie of `ixA` carrying the payload of `ixB` is
refused, and the cookie of `ix1` carrying its own payload is returned. -/
theorem getTrackedRequest_antiSubstitution_witness :
    scenario.tracker.GetTrackedRequest scenario.swappedJar "ixA"
      = Outcome.err (Err.indexMismatch "ixA" "ixB") ∧
    (⟨"ix1", "req-1", "/dashboard"⟩ : samlsp.TrackedRequest).Index = "ix1" :=
  ⟨(getTrackedRequest_antiSubstitution scenario.tracker scenario.swappedJar "ixA").1
      "ixB" (jar.fetch scenario.swappedJar "saml_ixA") "ixB|req-2|/admin"
      ⟨"ixB", "req-2", "/admin"⟩ (by decide) (by decide) (by decide) (by decide) rfl,
   (getTrackedRequest_antiSubstitution scenario.tracker scenario.trackedJar "ix1").2
      ⟨"ix1", "req-1", "/dashboard"⟩ (by decide)⟩

/-- C3. `GetSession` returns `ErrNoSession`, and no other error, when the
session cookie is absent (the store hands out a handle with an empty bag), when
the bag has no entry under the key "value", and when the codec fails to
decode the stored text; and it returns a session only when the bag holds a
text under "value" that the codec decodes, the session returned being the
decoded one. -/
theorem getSession_errNoSession {σ α τ : Type} (s : SessionProvider σ α τ) (st : σ) :
    (∀ c : sessions.Session, s.Store.Get st s.Name = Except.ok c → c.Values = [] →
      s.GetSession st = Outcome.err Err.ErrNoSession) ∧
    (∀ c : sessions.Session, s.Store.Get st s.Name = Except.ok c →
      c.Values.commaOk (Iface.str valueKey) = none →
      s.GetSession st = Outcome.err Err.ErrNoSession) ∧
    (∀ (c : sessions.Session) (v : String) (e : Err),
      s.Store.Get st s.Name = Except.ok c →
      c.Values.commaOk (Iface.str valueKey) = some (Iface.str v) →
      s.Codec.Decode v = Except.error e →
      s.GetSession st = Outcome.err Err.ErrNoSession) ∧
    (∀ sess : τ, s.GetSession st = Outcome.ok sess →
      ∃ (c : sessions.Session) (v : String),
        s.Store.Get st s.Name = Except.ok c ∧
        c.Values.commaOk (Iface.str valueKey) = some (Iface.str v) ∧
        s.Codec.Decode v = Except.ok sess) := by
  refine ⟨?_, ?_, ?_, ?_⟩
  · intro c hget hempty
    unfold SessionProvider.GetSession
    simp [hget, hempty, Values.commaOk]
  · intro c hget hnone
    unfold SessionProvider.GetSession
    simp [hget, hnone]
  · intro c v e hget hval hdec
    unfold SessionProvider.GetSession
    simp [hget, hval, Iface.assertString, hdec]
  · intro sess h
    unfold SessionProvider.GetSession at h
    split at h
    · cases h
    · rename_i c hget
      split at h
      · cases h
      · rename_i v hval
        split at h
        · cases h
        · rename_i str hstr
          split at h
          · cases h
          · rename_i samlSession hdec
            simp only [Outcome.ok.injEq] at h
            subst h
            cases v with
            | nil => simp [Iface.assertString] at hstr
            | int n => simp [Iface.assertString] at hstr
            | str w =>
              simp only [Iface.assertString, Option.some.injEq] at hstr
              subst hstr
              exact ⟨c, w, hget, hval, hdec⟩

/-- Witness for C3: no cookie, a bag without the key, an undecodable text, and
a good session cookie. -/
theorem getSession_errNoSession_witness :
    scenario.provider.GetSession [] = Outcome.err Err.ErrNoSession ∧
    scenario.provider.GetSession scenario.keylessJar = Outcome.err Err.ErrNoSession ∧
    scenario.provider.GetSession scenario.foreignJar = Outcome.err Err.ErrNoSession ∧
    (∃ (c : sessions.Session) (v : String),
      scenario.provider.Store.Get scenario.sessionJar scenario.provider.Name = Except.ok c ∧
      c.Values.commaOk (Iface.str valueKey) = some (Iface.str v) ∧
      scenario.provider.Codec.Decode v = Except.ok "subject=alice") :=
  ⟨(getSession_errNoSession scenario.provider []).1 (jar.fetch [] "token") rfl rfl,
   (getSession_errNoSession scenario.provider scenario.keylessJar).2.1
      (jar.fetch scenario.keylessJar "token") rfl (by decide),
   (getSession_errNoSession scenario.provider scenario.foreignJar).2.2.1
      (jar.fetch scenario.foreignJar "token") "garbage" (Err.external "not a session")
      rfl (by decide) (by decide),
   (getSession_errNoSession scenario.provider scenario.sessionJar).2.2.2
      "subject=alice" (by decide)⟩

/-! ## What a successful `CreateSession` did -/

theorem stripPort_fields {σ α τ : Type} (s : SessionProvider σ α τ) :
    s.stripPort.Store = s.Store ∧ s.stripPort.Name = s.Name ∧
    s.stripPort.HTTPOnly = s.HTTPOnly ∧ s.stripPort.Secure = s.Secure ∧
    s.stripPort.MaxAge = s.MaxAge ∧ s.stripPort.Codec = s.Codec := by
  unfold SessionProvider.stripPort
  split <;> simp

theorem sessionCookie_ok {σ α τ : Type} (s : SessionProvider σ α τ) (st : σ)
    (r : http.Request) (a : α) (c : sessions.Session)
    (h : s.sessionCookie st r a = Except.ok c) :
    ∃ samlSess value session,
      s.Codec.New a = Except.ok samlSess ∧
      s.Codec.Encode samlSess = Except.ok value ∧
      s.Store.New st s.Name = Except.ok session ∧
      c = { session with
            Values := session.Values.set (Iface.str valueKey) (Iface.str value)
            Options :=
              { session.Options with
                Domain := s.Domain
                MaxAge := float64.toInt (time.Seconds s.MaxAge)
                HttpOnly := s.HTTPOnly
                Secure := s.Secure || r.URL.Scheme == "https"
                Path := "/" } } := by
  unfold SessionProvider.sessionCookie at h
  split at h
  · cases h
  · rename_i samlSess hnew
    split at h
    · cases h
    · rename_i value henc
      split at h
      · cases h
      · rename_i session hsn
        simp only [Except.ok.injEq] at h
        exact ⟨samlSess, value, session, hnew, henc, hsn, h.symm⟩

theorem createSession_ok {σ α τ : Type} (s : SessionProvider σ α τ) (st st1 : σ)
    (r : http.Request) (a : α)
    (h : (s.CreateSession st r a).2 = Except.ok st1) :
    ∃ c, s.stripPort.sessionCookie st r a = Except.ok c ∧
      s.Store.Save st c = Except.ok st1 := by
  unfold SessionProvider.CreateSession at h
  simp only at h
  split at h
  · cases h
  · rename_i c hc
    rw [(stripPort_fields s).1] at h
    exact ⟨c, hc, h⟩

/-- C4. Round trip of sessions: over a store that names a new handle as asked
and in which the cookie that `CreateSession` saves is fetched back under its
name in the state `Save` yields, and a codec whose `Decode` inverts `Encode`
on the session built from the assertion: when `CreateSession` for assertion
`a` succeeds, `GetSession` on the resulting cookie state returns the session
`Codec.New a`. -/
theorem createSession_getSession_roundtrip {σ α τ : Type} (s : SessionProvider σ α τ)
    (st st1 : σ) (r : http.Request) (a : α)
    (hcreate : (s.CreateSession st r a).2 = Except.ok st1)
    (hcodec : ∀ sess signed, s.Codec.New a = Except.ok sess →
      s.Codec.Encode sess = Except.ok signed → s.Codec.Decode signed = Except.ok sess)
    (hname : s.Store.NamesNew st)
    (hfetch : ∀ c, s.stripPort.sessionCookie st r a = Except.ok c →
      s.Store.FetchesBack st c) :
    ∃ sess, s.Codec.New a = Except.ok sess ∧
      (s.CreateSession st r a).1.GetSession st1 = Outcome.ok sess := by
  obtain ⟨c, hc, hsave⟩ := createSession_ok s st st1 r a hcreate
  obtain ⟨c1, hget, hvals⟩ := hfetch c hc st1 hsave
  obtain ⟨samlSess, value, session, hnew, henc, hsn, hceq⟩ :=
    sessionCookie_ok s.stripPort st r a c hc
  obtain ⟨hS, hN, _, _, _, hC⟩ := stripPort_fields s
  rw [hC] at hnew henc
  rw [hS, hN] at hsn
  have hcname : c.name = s.Name := by
    rw [hceq]
    exact hname _ session hsn
  rw [hcname] at hget
  have hdec := hcodec samlSess value hnew henc
  have hv : c1.Values = session.Values.set (Iface.str valueKey) (Iface.str value) := by
    rw [hvals, hceq]
  refine ⟨samlSess, hnew, ?_⟩
  show s.stripPort.GetSession st1 = Outcome.ok samlSess
  unfold SessionProvider.GetSession
  rw [hS, hN, hC]
  simp [hget, hv, Values.commaOk_set, Iface.assertString, hdec]

/-- Witness for C4: a session for `alice`, created on `/dashboard` over the
cookie jar and read back. -/
theorem createSession_getSession_roundtrip_witness :
    ∃ sess, scenario.provider.Codec.New "alice" = Except.ok sess ∧
      (scenario.provider.CreateSession [] scenario.dashboard "alice").1.GetSession
        scenario.sessionJar = Outcome.ok sess :=
  createSession_getSession_roundtrip scenario.provider [] scenario.sessionJar
    scenario.dashboard "alice" (by decide)
    (by
      intro sess signed hnew henc
      have h1 : scenario.provider.Codec.New "alice" = Except.ok "subject=alice" := by decide
      rw [h1] at hnew
      cases hnew
      have h2 : scenario.provider.Codec.Encode "subject=alice" = Except.ok "subject=alice" := by
        decide
      rw [h2] at henc
      cases henc
      decide)
    (by
      intro n c h
      cases h
      rfl)
    (by
      intro c h st1 hsave
      have hc : scenario.provider.stripPort.sessionCookie [] scenario.dashboard "alice"
          = Except.ok
              { name := "token"
                Values := [(Iface.str "value", Iface.str "subject=alice")]
                Options := { Path := "/", Domain := "example.com", MaxAge := 3600,
                             Secure := false, HttpOnly := true } } := by decide
      rw [hc] at h
      cases h
      cases hsave
      exact ⟨_, rfl, by decide⟩)

/-- C6. The cookie written by a successful `CreateSession` has
`Secure = (configured Secure) OR (request URL scheme is "https")`: a provider
configured secure writes a secure cookie whatever the request scheme, and an
https request gets a secure cookie whatever the configuration. -/
theorem createSession_secure {σ α τ : Type} (s : SessionProvider σ α τ) (st st1 : σ)
    (r : http.Request) (a : α)
    (hcreate : (s.CreateSession st r a).2 = Except.ok st1) :
    ∃ c, s.stripPort.sessionCookie st r a = Except.ok c ∧
      s.Store.Save st c = Except.ok st1 ∧
      c.Options.Secure = (s.Secure || r.URL.Scheme == "https") ∧
      (s.Secure = true → c.Options.Secure = true) ∧
      (r.URL.Scheme = "https" → c.Options.Secure = true) := by
  obtain ⟨c, hc, hsave⟩ := createSession_ok s st st1 r a hcreate
  obtain ⟨_, _, session, _, _, _, hceq⟩ := sessionCookie_ok s.stripPort st r a c hc
  have hsec : c.Options.Secure = (s.Secure || r.URL.Scheme == "https") := by
    rw [hceq, (stripPort_fields s).2.2.2.1]
  refine ⟨c, hc, hsave, hsec, ?_, ?_⟩
  · intro h
    rw [hsec, h]
    rfl
  · intro h
    rw [hsec, h]
    simp

/-- Witness for C6: the insecure provider on a plain-transport request writes
an insecure cookie. -/
theorem createSession_secure_witness :
    ∃ c, scenario.provider.stripPort.sessionCookie [] scenario.dashboard "alice"
        = Except.ok c ∧
      scenario.provider.Store.Save [] c = Except.ok scenario.sessionJar ∧
      c.Options.Secure = (scenario.provider.Secure || scenario.dashboard.URL.Scheme == "https") ∧
      (scenario.provider.Secure = true → c.Options.Secure = true) ∧
      (scenario.dashboard.URL.Scheme = "https" → c.Options.Secure = true) :=
  createSession_secure scenario.provider [] scenario.sessionJar scenario.dashboard "alice"
    (by decide)

/-! ## `net.SplitHostPort` on plain `host:port` texts -/

theorem indexByteString_isSome (xs : List Char) (c : Char) :
    (bytealg.IndexByteString xs c).isSome = true ↔ c ∈ xs := by
  induction xs with
  | nil => simp [bytealg.IndexByteString]
  | cons x xs ih =>
    unfold bytealg.IndexByteString
    by_cases hx : x = c
    · simp [hx]
    · have hx1 : ¬ c = x := fun h => hx h.symm
      simp only [hx, if_false, List.mem_cons, hx1, false_or]
      rw [← ih]
      cases bytealg.IndexByteString xs c <;> simp

theorem lastIndexByteString_none (xs : List Char) (c : Char) (h : c ∉ xs) :
    bytealg.LastIndexByteString xs c = none := by
  induction xs with
  | nil => rfl
  | cons x xs ih =>
    simp only [List.mem_cons, not_or] at h
    unfold bytealg.LastIndexByteString
    rw [ih h.2]
    have hx : ¬ x = c := fun e => h.1 e.symm
    simp [hx]

theorem lastIndexByteString_append (host port : List Char) (c : Char) (h : c ∉ port) :
    bytealg.LastIndexByteString (host ++ c :: port) c = some host.length := by
  induction host with
  | nil =>
    simp only [List.nil_append, List.length_nil]
    unfold bytealg.LastIndexByteString
    rw [lastIndexByteString_none port c h]
    simp
  | cons x xs ih =>
    simp only [List.cons_append, List.length_cons]
    unfold bytealg.LastIndexByteString
    rw [ih]

theorem splitHostPort_plain (host port : String)
    (hhost : ':' ∉ host.data ∧ '[' ∉ host.data ∧ ']' ∉ host.data)
    (hport : ':' ∉ port.data ∧ '[' ∉ port.data ∧ ']' ∉ port.data) :
    net.SplitHostPort (host ++ ":" ++ port) = Except.ok (host, port) := by
  obtain ⟨hc, hl, hr⟩ := hhost
  obtain ⟨pc, pl, pr⟩ := hport
  have hdata : (host ++ ":" ++ port).data = host.data ++ ':' :: port.data := by
    simp [String.data_append]
  have hhead : ¬ (host.data ++ ':' :: port.data).head? = some '[' := by
    cases hd : host.data with
    | nil => simp
    | cons x xs =>
      rw [hd] at hl
      simp only [List.mem_cons, not_or] at hl
      simp only [List.cons_append, List.head?_cons, Option.some.injEq]
      exact fun e => hl.1 e.symm
  have hnoL : ¬ (bytealg.IndexByteString (host.data ++ ':' :: port.data) '[').isSome = true := by
    rw [indexByteString_isSome]
    simp [hl, pl]
  have hnoR : ¬ (bytealg.IndexByteString (host.data ++ ':' :: port.data) ']').isSome = true := by
    rw [indexByteString_isSome]
    simp [hr, pr]
  have hnoC : ¬ (bytealg.IndexByteString host.data ':').isSome = true := by
    rw [indexByteString_isSome]
    exact hc
  unfold net.SplitHostPort
  simp only [hdata, lastIndexByteString_append host.data port.data ':' pc, hhead, if_false,
    List.take_left, hnoC]
  have hdrop : List.drop (host.data.length + 1) (host.data ++ ':' :: port.data)
      = port.data := by
    rw [List.drop_append]
    rfl
  unfold net.splitTail
  simp only [List.drop_zero, hnoL, hnoR, if_false, hdrop]
  simp

theorem indexByteString_append (pre rest : List Char) (c : Char) (h : c ∉ pre) :
    bytealg.IndexByteString (pre ++ c :: rest) c = some pre.length := by
  induction pre with
  | nil => simp [bytealg.IndexByteString]
  | cons x xs ih =>
    simp only [List.mem_cons, not_or] at h
    have hx : ¬ x = c := fun e => h.1 e.symm
    simp only [List.cons_append, List.length_cons]
    unfold bytealg.IndexByteString
    simp only [hx, if_false, ih h.2]

theorem splitHostPort_bracketed (host port : String)
    (hhost : '[' ∉ host.data ∧ ']' ∉ host.data)
    (hport : ':' ∉ port.data ∧ '[' ∉ port.data ∧ ']' ∉ port.data) :
    net.SplitHostPort ("[" ++ host ++ "]:" ++ port) = Except.ok (host, port) := by
  obtain ⟨hl, hr⟩ := hhost
  obtain ⟨pc, pl, pr⟩ := hport
  have hdata : ("[" ++ host ++ "]:" ++ port).data
      = '[' :: (host.data ++ ']' :: ':' :: port.data) := by
    simp [String.data_append]
  have hlast : bytealg.LastIndexByteString ('[' :: (host.data ++ ']' :: ':' :: port.data)) ':'
      = some (host.data.length + 2) := by
    have e : '[' :: (host.data ++ ']' :: ':' :: port.data)
        = ('[' :: host.data ++ [']']) ++ ':' :: port.data := by simp
    rw [e, lastIndexByteString_append _ _ ':' pc]
    simp
  have hfirst : bytealg.IndexByteString ('[' :: (host.data ++ ']' :: ':' :: port.data)) ']'
      = some (host.data.length + 1) := by
    have e : '[' :: (host.data ++ ']' :: ':' :: port.data)
        = ('[' :: host.data) ++ ']' :: ':' :: port.data := by simp
    have hn : ']' ∉ '[' :: host.data := by
      simp only [List.mem_cons, not_or]
      exact ⟨by decide, hr⟩
    rw [e, indexByteString_append _ _ ']' hn]
    simp
  have hlen : ¬ host.data.length + 1 + 1
      = ('[' :: (host.data ++ ']' :: ':' :: port.data)).length := by
    simp only [List.length_cons, List.length_append]
    omega
  have hnoL : ¬ (bytealg.IndexByteString (host.data ++ ']' :: ':' :: port.data) '[').isSome
      = true := by
    rw [indexByteString_isSome]
    simp [hl, pl]
  have hnoR : ¬ (bytealg.IndexByteString (':' :: port.data) ']').isSome = true := by
    rw [indexByteString_isSome]
    simp [pr]
  have hd1 : List.drop (host.data.length + 1 + 1)
      ('[' :: (host.data ++ ']' :: ':' :: port.data)) = ':' :: port.data := by
    have e : '[' :: (host.data ++ ']' :: ':' :: port.data)
        = ('[' :: host.data ++ [']']) ++ ':' :: port.data := by simp
    have hl2 : host.data.length + 1 + 1 = ('[' :: host.data ++ [']']).length := by simp
    rw [e, hl2, List.drop_left]
  have hd2 : List.drop (host.data.length + 2 + 1)
      ('[' :: (host.data ++ ']' :: ':' :: port.data)) = port.data := by
    have e : '[' :: (host.data ++ ']' :: ':' :: port.data)
        = ('[' :: host.data ++ [']', ':']) ++ port.data := by simp
    have hl2 : host.data.length + 2 + 1 = ('[' :: host.data ++ [']', ':']).length := by simp
    rw [e, hl2, List.drop_left]
  have hhost : List.drop 1 (List.take (host.data.length + 1)
      ('[' :: (host.data ++ ']' :: ':' :: port.data))) = host.data := by
    simp [List.take_append]
  unfold net.SplitHostPort
  simp only [hdata, hlast, hfirst, List.head?_cons, if_true, hlen, if_false]
  have hd0 : List.drop 1 ('[' :: (host.data ++ ']' :: ':' :: port.data))
      = host.data ++ ']' :: ':' :: port.data := rfl
  unfold net.splitTail
  simp only [hd0, hd1, hd2, hhost, hnoL, hnoR, if_false]
  simp

theorem splitHostPort_no_colon (d : String) (h : ':' ∉ d.data) :
    net.SplitHostPort d = Except.error "missing port in address" := by
  unfold net.SplitHostPort
  simp only [lastIndexByteString_none d.data ':' h]

/-- C7. Port stripping: when the configured domain is `host:port` (host and
port free of colons and brackets), the cookie written by a successful
`CreateSession` has `Domain = host`, and likewise for a bracketed literal
`[host]:port`; when the configured domain has no colon, it is written
unchanged. -/
theorem createSession_domain_port_stripped {σ α τ : Type} (s : SessionProvider σ α τ)
    (st st1 : σ) (r : http.Request) (a : α)
    (hcreate : (s.CreateSession st r a).2 = Except.ok st1) :
    ∃ c, s.stripPort.sessionCookie st r a = Except.ok c ∧
      s.Store.Save st c = Except.ok st1 ∧
      (∀ host port : String, s.Domain = host ++ ":" ++ port →
        (':' ∉ host.data ∧ '[' ∉ host.data ∧ ']' ∉ host.data) →
        (':' ∉ port.data ∧ '[' ∉ port.data ∧ ']' ∉ port.data) →
        c.Options.Domain = host) ∧
      (∀ host port : String, s.Domain = "[" ++ host ++ "]:" ++ port →
        ('[' ∉ host.data ∧ ']' ∉ host.data) →
        (':' ∉ port.data ∧ '[' ∉ port.data ∧ ']' ∉ port.data) →
        c.Options.Domain = host) ∧
      (':' ∉ s.Domain.data → c.Options.Domain = s.Domain) := by
  obtain ⟨c, hc, hsave⟩ := createSession_ok s st st1 r a hcreate
  obtain ⟨_, _, session, _, _, _, hceq⟩ := sessionCookie_ok s.stripPort st r a c hc
  have hdom : c.Options.Domain = s.stripPort.Domain := by rw [hceq]
  refine ⟨c, hc, hsave, ?_, ?_, ?_⟩
  · intro host port hd hhost hport
    rw [hdom]
    unfold SessionProvider.stripPort
    rw [hd, splitHostPort_plain host port hhost hport]
  · intro host port hd hhost hport
    rw [hdom]
    unfold SessionProvider.stripPort
    rw [hd, splitHostPort_bracketed host port hhost hport]
  · intro hno
    rw [hdom]
    unfold SessionProvider.stripPort
    rw [splitHostPort_no_colon s.Domain hno]

/-- Witness for C7: the domain `example.com:8443` is written as `example.com`,
and the domain `example.com` is written as it is. -/
theorem createSession_domain_port_stripped_witness :
    (∃ c, scenario.provider.stripPort.sessionCookie [] scenario.dashboard "alice"
        = Except.ok c ∧ c.Options.Domain = "example.com") ∧
    (∃ c, scenario.portlessProvider.stripPort.sessionCookie [] scenario.dashboard "alice"
        = Except.ok c ∧ c.Options.Domain = "example.com") :=
  ⟨(createSession_domain_port_stripped scenario.provider [] scenario.sessionJar
      scenario.dashboard "alice" (by decide)).elim
      (fun c h => ⟨c, h.1, h.2.2.1 "example.com" "8443" (by decide) (by decide) (by decide)⟩),
   (createSession_domain_port_stripped scenario.portlessProvider [] scenario.sessionJar
      scenario.dashboard "alice" (by decide)).elim
      (fun c h => ⟨c, h.1, h.2.2.2.2 (by decide)⟩)⟩

/-- C9, as stated, fails: a provider whose exported field `HTTPOnly` is off
creates a session successfully and writes a cookie with `HttpOnly = false`. -/
theorem createSession_httpOnly_counterexample :
    ¬ (∀ (s : SessionProvider (List sessions.Session) String String)
        (st st1 : List sessions.Session) (r : http.Request) (a : String)
        (c : sessions.Session),
        (s.CreateSession st r a).2 = Except.ok st1 →
        s.stripPort.sessionCookie st r a = Except.ok c →
        c.Options.HttpOnly = true ∧ c.Options.Path = "/") := by
  intro h
  have h1 := h scenario.scriptableProvider [] [scenario.scriptableCookie]
    scenario.dashboard "alice" scenario.scriptableCookie
  revert h1
  decide

/-- C9, amended. The session cookie written by a successful `CreateSession`
has `HttpOnly` equal to the provider's `HTTPOnly` field and `Path = "/"`; the
field is `true` in every provider built by `DefaultSessionProvider`, so such a
provider writes `HttpOnly = true`. -/
theorem createSession_httpOnly_path {σ α τ : Type} (s : SessionProvider σ α τ)
    (st st1 : σ) (r : http.Request) (a : α)
    (hcreate : (s.CreateSession st r a).2 = Except.ok st1) :
    ∃ c, s.stripPort.sessionCookie st r a = Except.ok c ∧
      s.Store.Save st c = Except.ok st1 ∧
      c.Options.HttpOnly = s.HTTPOnly ∧
      c.Options.Path = "/" ∧
      (∀ (codec : samlsp.SessionCodec α τ) (opts : samlsp.Options),
        s = DefaultSessionProvider s.Store codec opts → c.Options.HttpOnly = true) := by
  obtain ⟨c, hc, hsave⟩ := createSession_ok s st st1 r a hcreate
  obtain ⟨_, _, session, _, _, _, hceq⟩ := sessionCookie_ok s.stripPort st r a c hc
  have hh : c.Options.HttpOnly = s.HTTPOnly := by
    rw [hceq, (stripPort_fields s).2.2.1]
  have hp : c.Options.Path = "/" := by rw [hceq]
  refine ⟨c, hc, hsave, hh, hp, ?_⟩
  intro codec opts hs
  rw [hh, hs]
  rfl

/-- Witness for the amended C9: the provider that `DefaultSessionProvider`
builds from the scenario options writes an http-only cookie at path `/`. -/
theorem createSession_httpOnly_path_witness :
    ∃ c, (DefaultSessionProvider jarStore subjectCodec scenario.options).stripPort.sessionCookie
        [] scenario.dashboard "alice" = Except.ok c ∧
      c.Options.HttpOnly = true ∧ c.Options.Path = "/" :=
  (createSession_httpOnly_path (DefaultSessionProvider jarStore subjectCodec scenario.options)
    [] (jar.put [] ⟨"token", [(Iface.str "value", Iface.str "subject=alice")],
          ⟨"/", "localhost", 3600, false, true⟩⟩)
    scenario.dashboard "alice" (by decide)).elim
    (fun c h => ⟨c, h.1, h.2.2.2.2 subjectCodec scenario.options rfl, h.2.2.2.1⟩)

/-! ## `int(d.Seconds())` is the whole seconds below 2^24 seconds -/

section Float
open float64

theorem rne_le (A N b : Nat) (hb : 0 < b) (h : A ≤ N * b) : rne A b ≤ N := by
  have hq : A / b ≤ N := by
    apply Nat.div_le_of_le_mul
    rw [Nat.mul_comm]; exact h
  have hA := Nat.div_add_mod A b
  unfold rne
  simp only
  split
  · exact hq
  · rename_i h1
    have hlt : A / b < N := by
      rcases Nat.lt_or_ge (A / b) N with h2 | h2
      · exact h2
      · have hqe : A / b = N := Nat.le_antisymm hq h2
        rw [hqe] at hA
        have : A % b = 0 := by nlinarith
        omega
    split
    · omega
    · split
      · exact hq
      · omega

theorem le_rne (A N b : Nat) (hb : 0 < b) (h : N * b ≤ A) : N ≤ rne A b := by
  have hq : N ≤ A / b := (Nat.le_div_iff_mul_le hb).mpr h
  unfold rne
  simp only
  split
  · exact hq
  · split
    · omega
    · split
      · exact hq
      · omega

theorem rne_lt (A N b : Nat) (hb : 0 < b) (h : 2 * A + b < 2 * N * b) : rne A b < N := by
  have hA := Nat.div_add_mod A b
  have hr := Nat.mod_lt A hb
  have hq : A / b < N := by
    by_contra hc
    have : N ≤ A / b := Nat.le_of_not_lt hc
    have h3 : N * b ≤ A / b * b := Nat.mul_le_mul_right b this
    have h4 : A / b * b ≤ A := Nat.div_mul_le_self A b
    have h5 : 2 * N * b = 2 * (N * b) := by ring
    omega
  unfold rne
  simp only
  split
  · exact hq
  · rename_i h1
    have hq1 : A / b + 1 < N ∨ (A / b + 1 = N) := by omega
    rcases hq1 with h2 | h2
    · split
      · omega
      · split <;> omega
    · exfalso
      have hN : N * b = (A / b) * b + b := by rw [← h2]; ring
      nlinarith

theorem bits_spec (fuel n : Nat) (hn : 1 ≤ n) (hf : n ≤ fuel) :
    2 ^ bits fuel n ≤ n ∧ n < 2 ^ (bits fuel n + 1) := by
  induction fuel generalizing n with
  | zero => omega
  | succ f ih =>
    unfold bits
    by_cases h2 : 2 ≤ n
    · simp only [h2, if_true]
      have := ih (n / 2) (by omega) (by omega)
      obtain ⟨h3, h4⟩ := this
      constructor
      · rw [pow_succ]; omega
      · rw [pow_succ]; omega
    · simp only [h2, if_false]
      omega

theorem log2_spec (n : Nat) (hn : 1 ≤ n) : 2 ^ log2 n ≤ n ∧ n < 2 ^ (log2 n + 1) :=
  bits_spec n n hn (Nat.le_refl n)

theorem ilog2_lt (a b j : Nat) (ha : 0 < a) (hb : 0 < b) (h : a < 2 ^ j * b) :
    ilog2 a b < (j : Int) := by
  obtain ⟨ha1, ha2⟩ := log2_spec a ha
  obtain ⟨hb1, hb2⟩ := log2_spec b hb
  have hlog : log2 a < j + log2 b + 1 := by
    by_contra hc
    have hge : j + log2 b + 1 ≤ log2 a := Nat.le_of_not_lt hc
    have : 2 ^ (j + log2 b + 1) ≤ 2 ^ log2 a := Nat.pow_le_pow_right (by norm_num) hge
    have h5 : 2 ^ (j + log2 b + 1) = 2 ^ j * 2 ^ (log2 b + 1) := by
      rw [Nat.add_assoc, pow_add]
    have h6 : 2 ^ j * b < 2 ^ j * 2 ^ (log2 b + 1) :=
      mul_lt_mul_of_pos_left hb2 (by positivity)
    omega
  unfold ilog2
  simp only
  by_cases hc0 : (0 : Int) ≤ (log2 a : Int) - (log2 b : Int)
  · simp only [hc0, if_true]
    by_cases hcond : b * 2 ^ ((log2 a : Int) - (log2 b : Int)).toNat ≤ a
    · simp only [hcond, if_true]
      by_contra hcon
      have hjc : (j : Int) ≤ (log2 a : Int) - (log2 b : Int) := Int.not_lt.mp hcon
      have hj : j ≤ ((log2 a : Int) - (log2 b : Int)).toNat := by omega
      have h8 : 2 ^ j ≤ 2 ^ ((log2 a : Int) - (log2 b : Int)).toNat :=
        Nat.pow_le_pow_right (by norm_num) hj
      have h9 : b * 2 ^ j ≤ b * 2 ^ ((log2 a : Int) - (log2 b : Int)).toNat :=
        Nat.mul_le_mul_left b h8
      have h7 : 2 ^ j * b = b * 2 ^ j := Nat.mul_comm _ _
      omega
    · simp only [hcond, if_false]
      omega
  · simp only [hc0, if_false]
    split <;> omega

theorem roundNat_zero (b : Nat) : roundNat 0 b = (0, 1) := by
  simp [roundNat]

theorem roundNat_fine (a b k : Nat) (ha : 0 < a) (hb : 0 < b) (hk : 1 ≤ k) (hk53 : k ≤ 53)
    (h : a < 2 ^ (53 - k) * b) :
    ∃ t, roundNat a b = (rne (a * 2 ^ (k + t)) b, 2 ^ (k + t)) := by
  have hlog := ilog2_lt a b (53 - k) ha hb h
  have he : ¬ (0 : Int) ≤ ilog2 a b - 52 := by omega
  have ha0 : ¬ a = 0 := by omega
  refine ⟨(-(ilog2 a b - 52)).toNat - k, ?_⟩
  have hkt : k + ((-(ilog2 a b - 52)).toNat - k) = (-(ilog2 a b - 52)).toNat := by omega
  unfold roundNat
  simp only [ha0, if_false, he, hkt]

theorem roundNat_sandwich (a b k l u : Nat) (hb : 0 < b) (hk : 1 ≤ k) (hk53 : k ≤ 53)
    (h : a < 2 ^ (53 - k) * b) (hl : l * b ≤ a * 2 ^ k) (hu : a * 2 ^ k ≤ u * b) :
    0 < (roundNat a b).2 ∧ l * (roundNat a b).2 ≤ (roundNat a b).1 * 2 ^ k ∧
      (roundNat a b).1 * 2 ^ k ≤ u * (roundNat a b).2 := by
  rcases Nat.eq_zero_or_pos a with ha | ha
  · subst ha
    rw [roundNat_zero]
    simp only [Nat.zero_mul, Nat.mul_one, Nat.le_zero_eq, Nat.mul_eq_zero] at hl ⊢
    refine ⟨Nat.one_pos, ?_, Nat.zero_le _⟩
    rcases hl with h0 | h0
    · exact h0
    · omega
  · obtain ⟨t, ht⟩ := roundNat_fine a b k ha hb hk hk53 h
    rw [ht]
    simp only
    have hpos : 0 < 2 ^ (k + t) := by positivity
    have hsplit : 2 ^ (k + t) = 2 ^ k * 2 ^ t := pow_add 2 k t
    refine ⟨hpos, ?_, ?_⟩
    · have h1 : l * 2 ^ t ≤ rne (a * 2 ^ (k + t)) b := by
        apply le_rne _ _ _ hb
        calc l * 2 ^ t * b = (l * b) * 2 ^ t := by ring
          _ ≤ (a * 2 ^ k) * 2 ^ t := Nat.mul_le_mul_right _ hl
          _ = a * 2 ^ (k + t) := by rw [hsplit]; ring
      calc l * 2 ^ (k + t) = (l * 2 ^ t) * 2 ^ k := by rw [hsplit]; ring
        _ ≤ rne (a * 2 ^ (k + t)) b * 2 ^ k := Nat.mul_le_mul_right _ h1
    · have h1 : rne (a * 2 ^ (k + t)) b ≤ u * 2 ^ t := by
        apply rne_le _ _ _ hb
        calc a * 2 ^ (k + t) = (a * 2 ^ k) * 2 ^ t := by rw [hsplit]; ring
          _ ≤ (u * b) * 2 ^ t := Nat.mul_le_mul_right _ hu
          _ = u * 2 ^ t * b := by ring
      calc rne (a * 2 ^ (k + t)) b * 2 ^ k ≤ (u * 2 ^ t) * 2 ^ k := Nat.mul_le_mul_right _ h1
        _ = u * 2 ^ (k + t) := by rw [hsplit]; ring

theorem roundNat_below (a b k u : Nat) (hb : 0 < b) (hk : 1 ≤ k) (hk53 : k ≤ 53)
    (h : a < 2 ^ (53 - k) * b) (hu : 2 * (a * 2 ^ k) + b < 2 * u * b) :
    (roundNat a b).1 * 2 ^ k < u * (roundNat a b).2 := by
  rcases Nat.eq_zero_or_pos a with ha | ha
  · subst ha
    rw [roundNat_zero]
    simp only [Nat.zero_mul, Nat.mul_one]
    rcases Nat.eq_zero_or_pos u with hu0 | hu0
    · subst hu0
      simp at hu
    · exact hu0
  · obtain ⟨t, ht⟩ := roundNat_fine a b k ha hb hk hk53 h
    rw [ht]
    simp only
    have hsplit : 2 ^ (k + t) = 2 ^ k * 2 ^ t := pow_add 2 k t
    have ht1 : 1 ≤ 2 ^ t := Nat.one_le_two_pow
    have h1 : rne (a * 2 ^ (k + t)) b < u * 2 ^ t := by
      apply rne_lt _ _ _ hb
      have e1 : 2 * (a * 2 ^ (k + t)) = (2 * (a * 2 ^ k)) * 2 ^ t := by rw [hsplit]; ring
      have e2 : 2 * (u * 2 ^ t) * b = (2 * u * b) * 2 ^ t := by ring
      rw [e1, e2]
      have h3 : (2 * (a * 2 ^ k) + b) * 2 ^ t < (2 * u * b) * 2 ^ t :=
        Nat.mul_lt_mul_of_pos_right hu (by positivity)
      have h4 : b ≤ b * 2 ^ t := Nat.le_mul_of_pos_right b (by positivity)
      have h5 : (2 * (a * 2 ^ k) + b) * 2 ^ t = (2 * (a * 2 ^ k)) * 2 ^ t + b * 2 ^ t := by ring
      omega
    calc rne (a * 2 ^ (k + t)) b * 2 ^ k < (u * 2 ^ t) * 2 ^ k :=
          Nat.mul_lt_mul_of_pos_right h1 (by positivity)
      _ = u * 2 ^ (k + t) := by rw [hsplit]; ring

theorem round_natCast (n b : Nat) :
    float64.round (n : Int) b = (((roundNat n b).1 : Int), (roundNat n b).2) := by
  unfold float64.round
  simp only [Int.natAbs_ofNat]
  rcases Nat.eq_zero_or_pos n with hn | hn
  · subst hn
    simp [roundNat_zero]
  · have : Int.sign (n : Int) = 1 := Int.sign_ofNat_of_nonzero (by omega)
    rw [this]
    simp

theorem round_neg (a : Int) (b : Nat) :
    float64.round (-a) b = (-(float64.round a b).1, (float64.round a b).2) := by
  unfold float64.round
  simp

theorem ofInt_exact (n : Nat) (h : n < 2 ^ 30) :
    ∃ D, 0 < D ∧ float64.ofInt (n : Int) = (((n * D : Nat) : Int), D) := by
  have hs := roundNat_sandwich n 1 23 (n * 2 ^ 23) (n * 2 ^ 23) Nat.one_pos (by norm_num)
    (by norm_num) (by norm_num; omega) (by simp) (by simp)
  obtain ⟨hD, h1, h2⟩ := hs
  refine ⟨(roundNat n 1).2, hD, ?_⟩
  unfold float64.ofInt
  rw [round_natCast]
  have heq : (roundNat n 1).1 * 2 ^ 23 = n * (roundNat n 1).2 * 2 ^ 23 := by
    have e : n * 2 ^ 23 * (roundNat n 1).2 = n * (roundNat n 1).2 * 2 ^ 23 := by ring
    omega
  have := Nat.eq_of_mul_eq_mul_right (by norm_num : 0 < 2 ^ 23) heq
  rw [this]

theorem seconds_natCast (n : Nat) (h : n < 2 ^ 24 * 1000000000) :
    float64.toInt (time.Seconds (n : Int)) = ((n / 1000000000 : Nat) : Int) := by
  have hsec : n / 1000000000 < 2 ^ 24 := by
    apply Nat.div_lt_of_lt_mul
    rw [Nat.mul_comm]; exact h
  have hnsec : n % 1000000000 < 1000000000 := Nat.mod_lt _ (by norm_num)
  obtain ⟨Ds, hDs, hofs⟩ := ofInt_exact (n / 1000000000) (by norm_num at hsec ⊢; omega)
  obtain ⟨Dn, hDn, hofn⟩ := ofInt_exact (n % 1000000000) (by norm_num; omega)
  have e1 : Int.tdiv (n : Int) time.Second = ((n / 1000000000 : Nat) : Int) := by
    unfold time.Second
    exact (Int.ofNat_tdiv n 1000000000).symm
  have e2 : Int.tmod (n : Int) time.Second = ((n % 1000000000 : Nat) : Int) := by
    unfold time.Second
    exact (Int.ofNat_tmod n 1000000000).symm
  unfold time.Seconds
  simp only [e1, e2, hofs, hofn]
  generalize n / 1000000000 = sec at hsec ⊢
  generalize n % 1000000000 = nsec at hnsec ⊢
  have hq : float64.div (((nsec * Dn : Nat) : Int), Dn) (1000000000, 1)
      = (((roundNat (nsec * Dn) (Dn * 1000000000)).1 : Int),
          (roundNat (nsec * Dn) (Dn * 1000000000)).2) := by
    unfold float64.div
    have hs : Int.sign (1000000000 : Int) = 1 := by decide
    have hn : Int.natAbs (1000000000 : Int) = 1000000000 := by decide
    simp only [hs, hn, Nat.cast_one, Int.mul_one]
    exact round_natCast _ _
  rw [hq]
  have hb1 : 0 < Dn * 1000000000 := by positivity
  have hs1 := roundNat_sandwich (nsec * Dn) (Dn * 1000000000) 53 0 (2 ^ 53 - 2 ^ 23 - 1) hb1
    (by norm_num) (by norm_num)
    (by
      norm_num
      have := Nat.mul_lt_mul_of_pos_right hnsec hDn
      nlinarith)
    (by simp)
    (by
      have h3 : nsec * Dn * 2 ^ 53 ≤ (1000000000 - 1) * Dn * 2 ^ 53 := by
        apply Nat.mul_le_mul_right
        apply Nat.mul_le_mul_right
        omega
      have h4 : (1000000000 - 1) * Dn * 2 ^ 53 ≤ (2 ^ 53 - 2 ^ 23 - 1) * (Dn * 1000000000) := by
        norm_num
        omega
      omega)
  obtain ⟨hD1, _, hm1⟩ := hs1
  generalize (roundNat (nsec * Dn) (Dn * 1000000000)).1 = m1 at hm1 ⊢
  generalize (roundNat (nsec * Dn) (Dn * 1000000000)).2 = D1 at hD1 hm1 ⊢
  have hm1lt : 2 ^ 30 * m1 + D1 < 2 ^ 30 * D1 := by
    norm_num at hm1 ⊢
    omega
  have hadd : float64.add (((sec * Ds : Nat) : Int), Ds) ((m1 : Int), D1)
      = (((roundNat (sec * Ds * D1 + m1 * Ds) (Ds * D1)).1 : Int),
          (roundNat (sec * Ds * D1 + m1 * Ds) (Ds * D1)).2) := by
    unfold float64.add
    simp only
    have : ((sec * Ds : Nat) : Int) * (D1 : Int) + (m1 : Int) * (Ds : Int)
        = ((sec * Ds * D1 + m1 * Ds : Nat) : Int) := by push_cast; ring
    rw [this]
    exact round_natCast _ _
  rw [hadd]
  have hb2 : 0 < Ds * D1 := Nat.mul_pos hDs hD1
  have hP : sec * Ds * D1 = sec * (Ds * D1) := by ring
  have hm1D : m1 * Ds < Ds * D1 := by
    have : m1 < D1 := by omega
    calc m1 * Ds < D1 * Ds := Nat.mul_lt_mul_of_pos_right this hDs
      _ = Ds * D1 := Nat.mul_comm _ _
  have hlt2 : sec * Ds * D1 + m1 * Ds < 2 ^ (53 - 29) * (Ds * D1) := by
    have h5 : (sec + 1) * (Ds * D1) ≤ 2 ^ 24 * (Ds * D1) :=
      Nat.mul_le_mul_right _ (by omega)
    have h6 : (sec + 1) * (Ds * D1) = sec * (Ds * D1) + Ds * D1 := by ring
    rw [hP]
    norm_num at h5 ⊢
    omega
  have hlow := (roundNat_sandwich (sec * Ds * D1 + m1 * Ds) (Ds * D1) 29 (sec * 2 ^ 29)
    ((sec + 1) * 2 ^ 29) hb2 (by norm_num) (by norm_num) hlt2
    (by
      have : sec * 2 ^ 29 * (Ds * D1) = sec * Ds * D1 * 2 ^ 29 := by ring
      rw [this, Nat.add_mul]
      exact Nat.le_add_right _ _)
    (by
      have h7 : (sec + 1) * 2 ^ 29 * (Ds * D1) = sec * Ds * D1 * 2 ^ 29 + Ds * D1 * 2 ^ 29 := by
        ring
      rw [h7, Nat.add_mul]
      have := Nat.mul_le_mul_right (2 ^ 29) (Nat.le_of_lt hm1D)
      omega))
  have hup := roundNat_below (sec * Ds * D1 + m1 * Ds) (Ds * D1) 29 ((sec + 1) * 2 ^ 29) hb2
    (by norm_num) (by norm_num) hlt2
    (by
      have h8 : 2 * ((sec * Ds * D1 + m1 * Ds) * 2 ^ 29) + Ds * D1
          = 2 ^ 30 * (sec * (Ds * D1)) + Ds * (2 ^ 30 * m1 + D1) := by ring
      have h9 : 2 * ((sec + 1) * 2 ^ 29) * (Ds * D1)
          = 2 ^ 30 * (sec * (Ds * D1)) + Ds * (2 ^ 30 * D1) := by ring
      rw [h8, h9]
      have := Nat.mul_lt_mul_of_pos_left hm1lt hDs
      omega)
  obtain ⟨hD2, hlo, _⟩ := hlow
  generalize (roundNat (sec * Ds * D1 + m1 * Ds) (Ds * D1)).1 = m2 at hlo hup ⊢
  generalize (roundNat (sec * Ds * D1 + m1 * Ds) (Ds * D1)).2 = D2 at hD2 hlo hup ⊢
  unfold float64.toInt
  simp only
  rw [← Int.ofNat_tdiv]
  congr 1
  apply Nat.div_eq_of_lt_le
  · have e : sec * 2 ^ 29 * D2 = (sec * D2) * 2 ^ 29 := by ring
    rw [e] at hlo
    exact Nat.le_of_mul_le_mul_right hlo (by norm_num)
  · have e : (sec + 1) * 2 ^ 29 * D2 = (sec.succ * D2) * 2 ^ 29 := by
      rw [Nat.succ_eq_add_one]; ring
    rw [e] at hup
    exact Nat.lt_of_mul_lt_mul_right hup

theorem tmod_neg_left (a b : Int) : (-a).tmod b = -(a.tmod b) := by
  rw [Int.tmod_def, Int.tmod_def, Int.neg_tdiv]
  ring

theorem seconds_neg (d : Int) : time.Seconds (-d) = (-(time.Seconds d).1, (time.Seconds d).2) := by
  unfold time.Seconds float64.add float64.div float64.ofInt
  simp only [Int.neg_tdiv, tmod_neg_left, round_neg]
  have hs : Int.sign (1000000000 : Int) = 1 := by decide
  simp only [hs, Nat.cast_one, Int.mul_one, Int.neg_mul, ← Int.neg_add, round_neg]

theorem toInt_seconds (d : Int) (h : d.natAbs < 2 ^ 24 * 1000000000) :
    float64.toInt (time.Seconds d) = Int.tdiv d time.Second := by
  rcases Int.natAbs_eq d with hd | hd
  · rw [hd, seconds_natCast _ h]
    unfold time.Second
    exact Int.ofNat_tdiv _ _
  · rw [hd, seconds_neg]
    unfold float64.toInt
    simp only [Int.neg_tdiv]
    have := seconds_natCast _ h
    unfold float64.toInt at this
    rw [this]
    unfold time.Second
    exact congrArg Neg.neg (Int.ofNat_tdiv _ _)

end Float

set_option maxRecDepth 100000

/-- C10, as stated, fails: with a max-age of 16777216999999999 ns the cookie
that `TrackRequest` saves has `MaxAge = 16777217`, one more than the whole
seconds of the max-age, because `int(t.MaxAge.Seconds())` rounds in float64. -/
theorem trackRequest_maxAge_counterexample :
    ¬ (∀ (t : RequestTracker (List sessions.Session)) (st st1 : List sessions.Session)
        (r : http.Request) (id index : String) (urlString : url.URL → String) (i : String)
        (rec : samlsp.TrackedRequest) (c : sessions.Session),
        t.TrackRequest st r id index urlString = Except.ok (i, st1) →
        t.trackingCookie st r id index urlString = Except.ok (rec, c) →
        c.name = t.NamePrefix ++ i ∧
        (∃ signed, t.Codec.Encode { Index := i, SAMLRequestID := id, URI := urlString r.URL }
            = Except.ok signed ∧
          c.Values.commaOk (Iface.str "value") = some (Iface.str signed)) ∧
        c.Options.HttpOnly = true ∧
        (c.Options.Secure = true ↔ t.ServiceProvider.AcsURL.Scheme = "https") ∧
        c.Options.Path = t.ServiceProvider.AcsURL.Path ∧
        c.Options.MaxAge = Int.tdiv t.MaxAge time.Second) := by
  intro h
  have htrack : scenario.longTracker.TrackRequest [] scenario.dashboard "req-1" "ix1"
      scenario.urlString = Except.ok ("ix1", [scenario.longCookie]) := by decide
  have hcookie : scenario.longTracker.trackingCookie [] scenario.dashboard "req-1" "ix1"
      scenario.urlString = Except.ok (scenario.trackedRecord, scenario.longCookie) := by decide
  have h1 := (h scenario.longTracker [] [scenario.longCookie] scenario.dashboard "req-1" "ix1"
    scenario.urlString "ix1" scenario.trackedRecord scenario.longCookie htrack hcookie).2.2.2.2.2
  revert h1
  decide

/-- C10, amended. When `TrackRequest` succeeds and returns index `i`, over a
store whose `New` names the handle as asked, the cookie it created and saved is
named `NamePrefix + i`, holds under the key "value" the codec's encoding of
the record with `Index = i`, the request ID and the request URL, and has
`HttpOnly = true`, `Secure = true` exactly when the assertion-consumer URL
scheme is "https", `Path` the assertion-consumer URL path, and
`MaxAge = int(t.MaxAge.Seconds())`, which is the max-age in whole seconds
(toward zero) whenever the max-age is under 2^24 seconds in magnitude. -/
theorem trackRequest_cookie {σ : Type} (t : RequestTracker σ) (st st1 : σ)
    (r : http.Request) (id index : String) (urlString : url.URL → String) (i : String)
    (hnew : t.Store.NamesNew st)
    (htrack : t.TrackRequest st r id index urlString = Except.ok (i, st1)) :
    ∃ c signed,
      t.trackingCookie st r id index urlString
        = Except.ok ({ Index := i, SAMLRequestID := id, URI := urlString r.URL }, c) ∧
      t.Store.Save st c = Except.ok st1 ∧
      c.name = t.NamePrefix ++ i ∧
      t.Codec.Encode { Index := i, SAMLRequestID := id, URI := urlString r.URL }
        = Except.ok signed ∧
      c.Values.commaOk (Iface.str "value") = some (Iface.str signed) ∧
      c.Options.HttpOnly = true ∧
      (c.Options.Secure = true ↔ t.ServiceProvider.AcsURL.Scheme = "https") ∧
      c.Options.Path = t.ServiceProvider.AcsURL.Path ∧
      c.Options.MaxAge = float64.toInt (time.Seconds t.MaxAge) ∧
      (t.MaxAge.natAbs < 2 ^ 24 * 1000000000 →
        c.Options.MaxAge = Int.tdiv t.MaxAge time.Second) := by
  obtain ⟨hi, c, hc, hsave⟩ := trackRequest_ok t st st1 r id index urlString i htrack
  subst hi
  obtain ⟨_, signed, session, henc, hn, hceq⟩ :=
    trackingCookie_ok t st r id i urlString _ c hc
  have hname := hnew _ session hn
  have hmax : c.Options.MaxAge = float64.toInt (time.Seconds t.MaxAge) := by rw [hceq]
  refine ⟨c, signed, hc, hsave, ?_, henc, ?_, ?_, ?_, ?_, hmax, ?_⟩
  · rw [hceq]
    exact hname
  · rw [hceq]
    exact Values.commaOk_set _ _ _
  · rw [hceq]
  · rw [hceq]
    simp
  · rw [hceq]
  · intro hb
    rw [hmax]
    exact toInt_seconds t.MaxAge hb

/-- Witness for the amended C10: the cookie of the scenario
`TrackRequest("req-1")` with index `ix1` and the default max-age of 90 s. -/
theorem trackRequest_cookie_witness :
    ∃ c, scenario.tracker.Store.Save [] c = Except.ok scenario.trackedJar ∧
      c.name = "saml_ix1" ∧
      c.Values.commaOk (Iface.str "value") = some (Iface.str "ix1|req-1|/dashboard") ∧
      c.Options.HttpOnly = true ∧
      c.Options.Secure = true ∧
      c.Options.Path = "/saml/acs" ∧
      c.Options.MaxAge = 90 :=
  (trackRequest_cookie scenario.tracker [] scenario.trackedJar scenario.dashboard "req-1" "ix1"
    scenario.urlString "ix1"
    (by
      intro n c h
      cases h
      rfl)
    (by decide)).elim
    (fun c hc => hc.elim (fun signed h =>
      ⟨c, h.2.1, h.2.2.1,
        (by
          have henc : scenario.tracker.Codec.Encode
              { Index := "ix1", SAMLRequestID := "req-1",
                URI := scenario.urlString scenario.dashboard.URL }
              = Except.ok "ix1|req-1|/dashboard" := by decide
          have h4 := h.2.2.2.1
          rw [henc] at h4
          cases h4
          exact h.2.2.2.2.1),
        h.2.2.2.2.2.1,
        h.2.2.2.2.2.2.1.mpr (by decide),
        h.2.2.2.2.2.2.2.1,
        (h.2.2.2.2.2.2.2.2.2 (by decide)).trans (by decide)⟩))

/-! ## `StopTrackingRequest` and the path of the tracking cookie -/

/-- C8, at the failing input: the default tracker with assertion-consumer path
`/saml/acs` over the cookie store with default path `/`.  `TrackRequest`
writes the cookie `saml_ix1` with `Path = /saml/acs`; `StopTrackingRequest`
succeeds, but the handle it re-saves with a negative max-age carries the
store's path `/`, so the client removes nothing and `GetTrackedRequest` on the
resulting cookie state still returns the record. -/
theorem stopTrackingRequest_keeps_cookie :
    scenario.tracker.TrackRequest [] scenario.dashboard "req-1" "ix1" scenario.urlString
      = Except.ok ("ix1", scenario.trackedJar) ∧
    scenario.tracker.StopTrackingRequest scenario.trackedJar "ix1"
      = Except.ok scenario.trackedJar ∧
    scenario.tracker.GetTrackedRequest scenario.trackedJar "ix1"
      = Outcome.ok scenario.trackedRecord := by
  decide

/-- When the assertion-consumer path is the store's default path, the cookie
that `StopTrackingRequest` re-saves names the tracked cookie, the client drops
it, and `GetTrackedRequest` afterwards reports `http.ErrNoCookie`. -/
theorem stopTrackingRequest_effective_at_store_path :
    ∃ jar1, scenario.rootTracker.TrackRequest [] scenario.dashboard "req-1" "ix1"
        scenario.urlString = Except.ok ("ix1", jar1) ∧
      scenario.rootTracker.GetTrackedRequest jar1 "ix1" = Outcome.ok scenario.trackedRecord ∧
      scenario.rootTracker.StopTrackingRequest jar1 "ix1" = Except.ok [] ∧
      scenario.rootTracker.GetTrackedRequest [] "ix1" = Outcome.err Err.ErrNoCookie :=
  ⟨_, rfl, by decide, by decide, by decide⟩

/-! ## The scan of `GetTrackedRequests` -/

theorem scanCookies_stringValued {σ : Type} (t : RequestTracker σ) (st : σ)
    (cookies : List http.Cookie) (reqs : List samlsp.TrackedRequest)
    (h : ∀ cookie ∈ cookies, t.stringValued st cookie) :
    t.scanCookies st cookies reqs
      = Outcome.ok (reqs ++ cookies.filterMap (t.contribution st)) := by
  induction cookies generalizing reqs with
  | nil => simp [RequestTracker.scanCookies]
  | cons cookie rest ih =>
    have hrest : ∀ x ∈ rest, t.stringValued st x :=
      fun x hx => h x (List.mem_cons_of_mem _ hx)
    have hc := h cookie (List.mem_cons_self _ _)
    unfold RequestTracker.scanCookies
    by_cases hp : strings.HasPrefix cookie.Name t.NamePrefix = true
    · cases hget : t.Store.Get st cookie.Name with
      | error e =>
        simp [hp, hget, ih reqs hrest, RequestTracker.contribution, List.filterMap_cons]
      | ok session =>
        by_cases hlen : session.Values.len = 0
        · simp [hp, hget, hlen, ih reqs hrest, RequestTracker.contribution,
            List.filterMap_cons]
        · obtain ⟨v, hv⟩ := hc hp session hget hlen
          cases hdec : t.Codec.Decode v with
          | error e =>
            simp [hp, hget, hlen, hv, hdec, Iface.assertString, ih reqs hrest,
              RequestTracker.contribution, List.filterMap_cons]
          | ok tr =>
            by_cases hidx : strings.TrimPrefix cookie.Name t.NamePrefix = tr.Index
            · simp [hp, hget, hlen, hv, hdec, hidx, Iface.assertString, ih _ hrest,
                RequestTracker.contribution, List.filterMap_cons]
            · simp [hp, hget, hlen, hv, hdec, hidx, Iface.assertString, ih reqs hrest,
                RequestTracker.contribution, List.filterMap_cons]
    · simp [hp, ih reqs hrest, RequestTracker.contribution, List.filterMap_cons]

/-- When every non-empty bag fetched for a cookie in the tracker's name space
holds a string under "value", `GetTrackedRequests` completes and returns, in
request order, one record for each cookie that qualifies and nothing for the
others. -/
theorem getTrackedRequests_of_stringValued {σ : Type} (t : RequestTracker σ) (st : σ)
    (r : http.Request) (h : ∀ cookie ∈ r.Cookies, t.stringValued st cookie) :
    t.GetTrackedRequests st r = Outcome.ok (r.Cookies.filterMap (t.contribution st)) := by
  unfold RequestTracker.GetTrackedRequests
  rw [scanCookies_stringValued t st r.Cookies [] h]
  simp

/-- C5, at the failing input: a request presenting the cookie `saml_prefs`,
whose bag in the store is not empty and has no entry under "value". The scan
does not skip the cookie: the unchecked type assertion panics and the whole
call aborts. -/
theorem getTrackedRequests_panics_on_stray_cookie :
    scenario.tracker.GetTrackedRequests scenario.strayJar scenario.strayRequest
      = Outcome.panicked := by
  decide

/-- On the same kind of bag the sibling `GetSession`, which reads the entry
with the comma-ok form, reports `ErrNoSession` and does not panic. -/
theorem getSession_keyless_bag_no_panic :
    scenario.provider.GetSession scenario.keylessJar = Outcome.err Err.ErrNoSession := by
  decide

end Pongo
